import Mathlib

/-!
Shallow embedding of `src/app.py` (a Streamlit crash-outcome predictor with
an under-count heuristic, a result ledger and two hypothetical betting
balances), together with proofs about the embedded operations.

Multiplier values are modelled as rationals (`ℚ`); the persisted artifacts
(`history.csv`, `results.csv`, `sol_balance.txt`, `fixed_balance.txt`) are
modelled as a record of `Option`-valued slots, where `none` models an
absent file.
-/

namespace App

/-- Constant `INITIAL_BALANCE = 0.1` (app.py line 14). -/
def INITIAL_BALANCE : ℚ := 1/10

/-- Constant `FLAT_BET = 0.01` (app.py line 15). -/
def FLAT_BET : ℚ := 1/100

/-- Constant `FIXED_BET = 0.02` (app.py line 16). -/
def FIXED_BET : ℚ := 2/100

/-- Constant `WINDOW = 20` (app.py line 17). -/
def WINDOW : ℕ := 20

/-- Constant `MIN_UNDERS_FOR_ABOVE = 14` (app.py line 18). -/
def MIN_UNDERS_FOR_ABOVE : ℕ := 14

/-- The fixed threshold `2.0` hard-coded throughout app.py
(lines 43, 67, 73 and the default of `predict_from_unders`). -/
def threshold : ℚ := 2

/-- One row of `results.csv`: columns `prediction`, `actual`, `correct`
(app.py line 40, 45). -/
structure ResultRecord where
  prediction : String
  actual : ℚ
  correct : Bool
deriving DecidableEq, Repr

/-- The persisted artifacts.  `none` models a file that does not exist on
disk; `some v` models a file whose parsed content is `v`. -/
structure FS where
  historyFile : Option (List ℚ)
  resultsFile : Option (List ResultRecord)
  flatFile : Option ℚ
  fixedFile : Option ℚ
deriving DecidableEq, Repr

/-- A file system with no persisted artifacts (fresh deployment). -/
def emptyFS : FS :=
  { historyFile := none, resultsFile := none, flatFile := none, fixedFile := none }

/-- `load_history` (app.py lines 28-32): returns the `multiplier` column of
`history.csv` if the file exists, else the empty list. -/
def load_history (fs : FS) : List ℚ :=
  fs.historyFile.getD []

/-- `save_history` (app.py lines 34-35): writes the list as `history.csv`. -/
def save_history (data : List ℚ) (fs : FS) : FS :=
  { fs with historyFile := some data }

/-- `load_results` (app.py lines 37-40): returns the rows of `results.csv`
if the file exists, else an empty table. -/
def load_results (fs : FS) : List ResultRecord :=
  fs.resultsFile.getD []

/-- `get_flat_balance` (app.py lines 52-56): content of `sol_balance.txt`,
or `INITIAL_BALANCE` if the file does not exist. -/
def get_flat_balance (fs : FS) : ℚ :=
  fs.flatFile.getD INITIAL_BALANCE

/-- `get_fixed_balance` (app.py lines 58-62): content of
`fixed_balance.txt`, or `INITIAL_BALANCE` if the file does not exist. -/
def get_fixed_balance (fs : FS) : ℚ :=
  fs.fixedFile.getD INITIAL_BALANCE

/-- `update_flat_balance` (app.py lines 64-69): only when the prediction is
`"Above"`, add `FLAT_BET` if `actual > 2.0` else subtract it, and write the
new balance; otherwise the file is untouched. -/
def update_flat_balance (prediction : String) (actual : ℚ) (fs : FS) : FS :=
  if prediction = "Above" then
    let balance := get_flat_balance fs + (if threshold < actual then FLAT_BET else -FLAT_BET)
    { fs with flatFile := some balance }
  else fs

/-- `update_fixed_balance` (app.py lines 71-75): add `FIXED_BET` if
`actual > 2.0` else subtract it, and write the new balance. -/
def update_fixed_balance (actual : ℚ) (fs : FS) : FS :=
  let balance := get_fixed_balance fs + (if threshold < actual then FIXED_BET else -FIXED_BET)
  { fs with fixedFile := some balance }

/-- The `correct` flag computed inline in `save_result` (app.py line 43):
`((prediction == "Above") and actual > 2.0) or
((prediction == "Under") and actual <= 2.0)`. -/
def correct_of (prediction : String) (actual : ℚ) : Bool :=
  (prediction == "Above" && decide (threshold < actual)) ||
  (prediction == "Under" && decide (actual ≤ threshold))

/-- `save_result` (app.py lines 42-49): append the
`(prediction, actual, correct)` row to `results.csv`, update the flat
balance, and update the fixed balance only when the prediction is
`"Above"`. -/
def save_result (prediction : String) (actual : ℚ) (fs : FS) : FS :=
  let correct := correct_of prediction actual
  let newRows := load_results fs ++ [⟨prediction, actual, correct⟩]
  let fs1 := { fs with resultsFile := some newRows }
  let fs2 := update_flat_balance prediction actual fs1
  if prediction = "Above" then update_fixed_balance actual fs2 else fs2

/-- `reset_balance` (app.py lines 77-80): delete `sol_balance.txt`,
`fixed_balance.txt` and `results.csv` when they exist. -/
def reset_balance (fs : FS) : FS :=
  { fs with flatFile := none, fixedFile := none, resultsFile := none }

/-- `normalize_input` (app.py lines 83-84):
`value / 100 if value > 10 else value`. -/
def normalize_input (value : ℚ) : ℚ :=
  if 10 < value then value / 100 else value

/-- `predict_from_unders` (app.py lines 86-94): `(None, None)` (modelled as
`none`) when the history is shorter than the window; otherwise count how
many of the last `window` entries are strictly below the threshold and
return `("Above", under_count)` when `under_count >= min_unders_for_above`,
else `("Under", under_count)`. -/
def predict_from_unders (data : List ℚ) (thr : ℚ) (window : ℕ)
    (min_unders_for_above : ℕ) : Option (String × ℕ) :=
  if data.length < window then none
  else
    let recent := data.drop (data.length - window)
    let under_count := recent.countP (fun x => decide (x < thr))
    if min_unders_for_above ≤ under_count then some ("Above", under_count)
    else some ("Under", under_count)

/-- `aggregate`, the accuracy tracker computed in `main` (app.py lines
156-163): `total = len(results_df)`,
`correct = int(results_df['correct'].sum())`,
`acc = correct / total if total else 0`. -/
def aggregate (ledger : List ResultRecord) : ℕ × ℕ × ℚ :=
  let total : ℕ := ledger.length
  let numCorrect : ℕ := (ledger.map (fun r => if r.correct then (1 : ℕ) else 0)).sum
  let acc : ℚ := if total = 0 then 0 else (numCorrect : ℚ) / (total : ℚ)
  (total, numCorrect, acc)

/-- The per-session state of `main` (app.py lines 97-171):
`st.session_state.history`, the optional `st.session_state.last_prediction`
(the pending prediction's label), and the persisted files. -/
structure SState where
  history : List ℚ
  last_prediction : Option String
  fs : FS
deriving DecidableEq, Repr

/-- The events of one Streamlit script run of `main`: a manual entry with a
parseable value (the `Add multiplier` button, app.py lines 127-136), the
reset button (lines 117-123), a CSV upload (lines 110-114), and a plain
rerun with no button pressed (only the prediction section, lines 140-150,
runs). -/
inductive Event where
  | add (v : ℚ)
  | reset
  | upload (data : List ℚ)
  | rerun
deriving DecidableEq, Repr

/-- One script run of `main` with slider value `minU`
(app.py lines 97-171).  For `add v`: the parsed value is normalized; if a
`last_prediction` exists it is settled via `save_result` and deleted; the
value is appended to the history and the history saved; then the
prediction section recomputes `predict_from_unders` on the extended
history and stores the label when the result is not `None`.  For `reset`:
the session history is cleared, `save_history([])` runs, `reset_balance`
runs and `history.csv` is removed; the prediction section is skipped
because the history is empty, so `last_prediction` is untouched.  For
`upload data`: the history is replaced and saved; the prediction section
stores the new label when `predict_from_unders` on the new history is not
`None`, otherwise `last_prediction` is untouched.  For `rerun`: only the
prediction section runs on the unchanged history. -/
def step (minU : ℕ) (s : SState) (e : Event) : SState :=
  match e with
  | .add v =>
      let val := normalize_input v
      let fs1 := match s.last_prediction with
        | some p => save_result p val s.fs
        | none => s.fs
      let hist := s.history ++ [val]
      let fs2 := save_history hist fs1
      let pending := (predict_from_unders hist threshold WINDOW minU).map (fun r => r.1)
      { history := hist, last_prediction := pending, fs := fs2 }
  | .reset =>
      { history := [], last_prediction := s.last_prediction, fs := emptyFS }
  | .upload data =>
      let fs2 := save_history data s.fs
      let pending := match predict_from_unders data threshold WINDOW minU with
        | some r => some r.1
        | none => s.last_prediction
      { history := data, last_prediction := pending, fs := fs2 }
  | .rerun =>
      let pending := match predict_from_unders s.history threshold WINDOW minU with
        | some r => some r.1
        | none => s.last_prediction
      { history := s.history, last_prediction := pending, fs := s.fs }

/-- The initial session state: empty history (fresh deployment, no
persisted files), no pending prediction (app.py lines 105-106). -/
def init : SState :=
  { history := [], last_prediction := none, fs := emptyFS }

/-- Run a sequence of script runs with a fixed slider value. -/
def run (minU : ℕ) (s : SState) (evs : List Event) : SState :=
  evs.foldl (step minU) s

/-- The states reachable from the initial state by script runs whose slider
value lies in the slider's range `[10, 20]` (app.py lines 102-103). -/
inductive Reachable : SState → Prop
  | init : Reachable init
  | step (s : SState) (e : Event) (minU : ℕ)
      (h1 : 10 ≤ minU) (h2 : minU ≤ 20) :
      Reachable s → Reachable (step minU s e)

/-- The states reachable from the initial state using only manual entries
and plain reruns (no reset, no bulk import). -/
inductive ReachableManual : SState → Prop
  | init : ReachableManual init
  | add (s : SState) (v : ℚ) (minU : ℕ)
      (h1 : 10 ≤ minU) (h2 : minU ≤ 20) :
      ReachableManual s → ReachableManual (step minU s (.add v))
  | rerun (s : SState) (minU : ℕ)
      (h1 : 10 ≤ minU) (h2 : minU ≤ 20) :
      ReachableManual s → ReachableManual (step minU s .rerun)

/-! ## Spec-side definitions and helper lemmas -/

/-- The spec's description of the under count: the number of entries among
the last `windowSize` (20) entries of the history that are strictly below
the threshold, computed here from the reversed list (the last 20 entries
are the first 20 of the reverse; counting ignores order). -/
def underCount_spec (data : List ℚ) : ℕ :=
  (data.reverse.take WINDOW).countP (fun x => decide (x < threshold))

lemma countP_drop_eq_underCount_spec (data : List ℚ) :
    (data.drop (data.length - WINDOW)).countP (fun x => decide (x < threshold)) =
      underCount_spec data := by
  rw [underCount_spec, List.take_reverse, List.countP_reverse]

lemma predict_from_unders_some_length {data : List ℚ} {thr : ℚ} {w m : ℕ}
    {r : String × ℕ} (h : predict_from_unders data thr w m = some r) :
    w ≤ data.length := by
  by_cases hl : data.length < w
  · simp [predict_from_unders, hl] at h
  · exact le_of_not_lt hl

lemma sum_map_ite_eq_length_filter (l : List ResultRecord) :
    (l.map (fun r => if r.correct then (1 : ℕ) else 0)).sum =
      (l.filter (fun r => r.correct)).length := by
  induction l with
  | nil => rfl
  | cons a t ih =>
      by_cases h : a.correct <;> simp [h, ih, List.filter_cons, Nat.add_comm]

/-! ## Theorems for the claims -/

/-- C4: `normalize_input` divides by 100 exactly when the value exceeds 10
and leaves the value unchanged otherwise (including at exactly 10, zero and
negative values); concrete cases 187 ↦ 1.87, 1.87 ↦ 1.87, 10 ↦ 10 and
10.01 ↦ 0.1001. -/
theorem normalize_input_spec :
    (∀ v : ℚ, 10 < v → normalize_input v = v / 100) ∧
    (∀ v : ℚ, v ≤ 10 → normalize_input v = v) ∧
    normalize_input 187 = 187/100 ∧
    normalize_input (187/100) = 187/100 ∧
    normalize_input 10 = 10 ∧
    normalize_input 0 = 0 ∧
    normalize_input (-5) = -5 ∧
    normalize_input (1001/100) = 1001/10000 := by
  refine ⟨fun v h => ?_, fun v h => ?_, ?_, ?_, ?_, ?_, ?_, ?_⟩
  · simp [normalize_input, h]
  · simp [normalize_input, not_lt.mpr h]
  · norm_num [normalize_input]
  · norm_num [normalize_input]
  · norm_num [normalize_input]
  · norm_num [normalize_input]
  · norm_num [normalize_input]
  · norm_num [normalize_input]

/-- Witness for C4 at the concrete inputs 187 (above the cutoff) and -5
(below the cutoff). -/
theorem normalize_input_spec_witness :
    ((10 : ℚ) < 187 ∧ normalize_input 187 = 187 / 100) ∧
    ((-5 : ℚ) ≤ 10 ∧ normalize_input (-5) = -5) :=
  ⟨⟨by norm_num, normalize_input_spec.1 187 (by norm_num)⟩,
   ⟨by norm_num, normalize_input_spec.2.1 (-5) (by norm_num)⟩⟩

/-- C6: for any history shorter than the window, the predictor returns the
`insufficient data` sentinel (`none`, modelling Python's `(None, None)`),
regardless of the history's contents. -/
theorem predict_from_unders_insufficient (data : List ℚ) (thr : ℚ) (w m : ℕ)
    (h : data.length < w) : predict_from_unders data thr w m = none := by
  simp [predict_from_unders, h]

/-- Witness for C6 at a concrete 3-element history. -/
theorem predict_from_unders_insufficient_witness :
    ([(1 : ℚ), 5, 3].length < WINDOW) ∧
    predict_from_unders [(1 : ℚ), 5, 3] threshold WINDOW MIN_UNDERS_FOR_ABOVE = none :=
  ⟨by decide, predict_from_unders_insufficient _ _ _ _ (by decide)⟩

/-- C10: saving a list of multipliers as the outcome history and loading it
back returns the same list (`load_history` after `save_history` is the
identity, for any prior file-system contents). -/
theorem load_save_history_roundtrip (data : List ℚ) (fs : FS) :
    load_history (save_history data fs) = data := rfl

/-- C1: for any history of length at least 20, the predictor counts the
entries among the last 20 that are strictly below the threshold and returns
`("Above", underCount)` when `underCount ≥ minUndersForAbove`, else
`("Under", underCount)`; with exactly 14 of the last 20 values below 2.0
and `minUndersForAbove = 14` it returns `("Above", 14)`, and with 13 such
values it returns `("Under", 13)`. -/
theorem predict_from_unders_spec :
    (∀ (data : List ℚ) (minU : ℕ), WINDOW ≤ data.length →
      predict_from_unders data threshold WINDOW minU =
        some (if minU ≤ underCount_spec data then "Above" else "Under",
          underCount_spec data)) ∧
    predict_from_unders (List.replicate 14 (1 : ℚ) ++ List.replicate 6 3)
      threshold WINDOW 14 = some ("Above", 14) ∧
    predict_from_unders (List.replicate 13 (1 : ℚ) ++ List.replicate 7 3)
      threshold WINDOW 14 = some ("Under", 13) := by
  refine ⟨fun data minU h => ?_, by decide, by decide⟩
  have hnl : ¬ data.length < WINDOW := not_lt.mpr h
  have hcount := countP_drop_eq_underCount_spec data
  unfold predict_from_unders
  rw [if_neg hnl]
  by_cases hm : minU ≤ underCount_spec data <;> simp [hcount, hm]

/-- Witness for C1 at a concrete 20-element history. -/
theorem predict_from_unders_spec_witness :
    WINDOW ≤ (List.replicate 20 (1 : ℚ)).length ∧
    predict_from_unders (List.replicate 20 (1 : ℚ)) threshold WINDOW 14 =
      some (if 14 ≤ underCount_spec (List.replicate 20 (1 : ℚ)) then "Above" else "Under",
        underCount_spec (List.replicate 20 (1 : ℚ))) :=
  ⟨by decide, predict_from_unders_spec.1 (List.replicate 20 (1 : ℚ)) 14 (by decide)⟩

/-- C2: settling a pending prediction appends a record whose `correct` flag
equals `(prediction = "Above" ∧ actual > 2.0) ∨
(prediction = "Under" ∧ actual ≤ 2.0)`; at an actual outcome of exactly
2.0, an "Under" prediction is correct and an "Above" prediction is
incorrect — no dead zone at the threshold. -/
theorem save_result_correct_spec :
    (∀ (p : String) (a : ℚ), correct_of p a = true ↔
      ((p = "Above" ∧ threshold < a) ∨ (p = "Under" ∧ a ≤ threshold))) ∧
    (∀ (p : String) (a : ℚ) (fs : FS),
      load_results (save_result p a fs) =
        load_results fs ++ [⟨p, a, correct_of p a⟩]) ∧
    correct_of "Under" threshold = true ∧
    correct_of "Above" threshold = false := by
  refine ⟨fun p a => ?_, fun p a fs => ?_, by decide, by decide⟩
  · simp [correct_of]
  · by_cases hp : p = "Above" <;>
      simp [save_result, update_flat_balance, update_fixed_balance,
        load_results, hp]

/-- Witness for C2: a settled "Under" prediction at an actual of exactly
2.0 appends a record flagged correct. -/
theorem save_result_correct_spec_witness :
    load_results (save_result "Under" threshold emptyFS) =
      load_results emptyFS ++ [⟨"Under", threshold, correct_of "Under" threshold⟩] :=
  save_result_correct_spec.2.1 "Under" threshold emptyFS

/-- C3: at settlement, an "Above" prediction moves the flat balance by
`±FLAT_BET` (`0.01`) and the fixed balance by `±FIXED_BET` (`0.02`)
according to whether the actual exceeds the threshold, while an "Under"
prediction leaves both balance files untouched. -/
theorem settlement_balances (a : ℚ) (fs : FS) :
    get_flat_balance (save_result "Above" a fs) =
      get_flat_balance fs + (if threshold < a then FLAT_BET else -FLAT_BET) ∧
    get_fixed_balance (save_result "Above" a fs) =
      get_fixed_balance fs + (if threshold < a then FIXED_BET else -FIXED_BET) ∧
    (save_result "Under" a fs).flatFile = fs.flatFile ∧
    (save_result "Under" a fs).fixedFile = fs.fixedFile ∧
    get_flat_balance (save_result "Under" a fs) = get_flat_balance fs ∧
    get_fixed_balance (save_result "Under" a fs) = get_fixed_balance fs ∧
    FLAT_BET = 1/100 ∧ FIXED_BET = 2/100 := by
  refine ⟨?_, ?_, ?_, ?_, ?_, ?_, rfl, rfl⟩ <;>
    simp [save_result, update_flat_balance, update_fixed_balance,
      get_flat_balance, get_fixed_balance]

/-- C8: the accuracy aggregator returns the ledger's length as `total`, the
number of records flagged correct as `correct`, and `correct / total` as
the rate, with the rate 0 on an empty ledger. -/
theorem aggregate_spec (ledger : List ResultRecord) :
    (aggregate ledger).1 = ledger.length ∧
    (aggregate ledger).2.1 = (ledger.filter (fun r => r.correct)).length ∧
    (ledger.length = 0 → (aggregate ledger).2.2 = 0) ∧
    (ledger.length ≠ 0 → (aggregate ledger).2.2 =
      ((ledger.filter (fun r => r.correct)).length : ℚ) / (ledger.length : ℚ)) := by
  refine ⟨rfl, ?_, fun h => ?_, fun h => ?_⟩
  · simpa [aggregate] using sum_map_ite_eq_length_filter ledger
  · simp [aggregate, h]
  · simp [aggregate, h, sum_map_ite_eq_length_filter]

/-- Witness for C8 on the empty ledger and on a concrete one-record
ledger. -/
theorem aggregate_spec_witness :
    (([] : List ResultRecord).length = 0 ∧
      (aggregate ([] : List ResultRecord)).2.2 = 0) ∧
    ([(⟨"Above", 3, true⟩ : ResultRecord)].length ≠ 0 ∧
      (aggregate [(⟨"Above", 3, true⟩ : ResultRecord)]).2.2 =
        (([(⟨"Above", 3, true⟩ : ResultRecord)].filter
            (fun r => r.correct)).length : ℚ) /
          (([(⟨"Above", 3, true⟩ : ResultRecord)]).length : ℚ)) :=
  ⟨⟨rfl, (aggregate_spec []).2.2.1 rfl⟩,
   ⟨by decide, (aggregate_spec [⟨"Above", 3, true⟩]).2.2.2 (by decide)⟩⟩

/-! ## State-machine helper lemmas -/

lemma step_add_no_pending (minU : ℕ) (v : ℚ) (s : SState)
    (h : s.last_prediction = none) :
    (step minU s (.add v)).history = s.history ++ [normalize_input v] ∧
    (step minU s (.add v)).fs = save_history (s.history ++ [normalize_input v]) s.fs := by
  simp [step, h]

lemma run_cons (minU : ℕ) (s : SState) (e : Event) (t : List Event) :
    run minU s (e :: t) = run minU (step minU s e) t := rfl

lemma reachable_run (minU : ℕ) (h1 : 10 ≤ minU) (h2 : minU ≤ 20) :
    ∀ (evs : List Event) (s : SState), Reachable s → Reachable (run minU s evs) := by
  intro evs
  induction evs with
  | nil => exact fun s hs => hs
  | cons e t ih =>
      intro s hs
      exact ih (step minU s e) (Reachable.step s e minU h1 h2 hs)

lemma manual_pending_some_length (s : SState) (h : ReachableManual s) :
    ∀ p, s.last_prediction = some p → WINDOW ≤ s.history.length := by
  induction h with
  | init => intro p hp; simp [init] at hp
  | add s v minU h1 h2 hs ih =>
      intro p hp
      simp only [step] at hp ⊢
      rcases hpred : predict_from_unders (s.history ++ [normalize_input v])
          threshold WINDOW minU with _ | r
      · rw [hpred] at hp; simp at hp
      · exact predict_from_unders_some_length hpred
  | rerun s minU h1 h2 hs ih =>
      intro p hp
      simp only [step] at hp ⊢
      rcases hpred : predict_from_unders s.history threshold WINDOW minU with _ | r
      · rw [hpred] at hp; exact ih p hp
      · exact predict_from_unders_some_length hpred

/-! ## Remaining claim theorems -/

/-- C7: after the reset event both balance accounts read as
`INITIAL_BALANCE` (0.1), the history and the result ledger read as empty;
and each missing persisted artifact is read back as the same empty/default
state rather than an error. -/
theorem reset_spec :
    (∀ (minU : ℕ) (s : SState),
      (step minU s .reset).history = [] ∧
      get_flat_balance (step minU s .reset).fs = INITIAL_BALANCE ∧
      get_fixed_balance (step minU s .reset).fs = INITIAL_BALANCE ∧
      load_history (step minU s .reset).fs = [] ∧
      load_results (step minU s .reset).fs = []) ∧
    (∀ fs : FS, fs.flatFile = none → get_flat_balance fs = INITIAL_BALANCE) ∧
    (∀ fs : FS, fs.fixedFile = none → get_fixed_balance fs = INITIAL_BALANCE) ∧
    (∀ fs : FS, fs.historyFile = none → load_history fs = []) ∧
    (∀ fs : FS, fs.resultsFile = none → load_results fs = []) := by
  refine ⟨fun minU s => ?_, fun fs h => ?_, fun fs h => ?_, fun fs h => ?_,
    fun fs h => ?_⟩
  · simp [step, emptyFS, get_flat_balance, get_fixed_balance, load_history,
      load_results]
  · simp [get_flat_balance, h]
  · simp [get_fixed_balance, h]
  · simp [load_history, h]
  · simp [load_results, h]

/-- A concrete session state with nonzero balances, a nonempty history and
a nonempty ledger, used to witness the reset theorem. -/
def sampleState : SState where
  history := [1, 3]
  last_prediction := none
  fs :=
    { historyFile := some [1, 3]
      resultsFile := some [⟨"Above", 3, true⟩]
      flatFile := some (7/100)
      fixedFile := some (9/100) }

/-- Witness for C7 at a concrete state with nonzero balances, a nonempty
history and a nonempty ledger, and at the empty file system. -/
theorem reset_spec_witness :
    (step 14 sampleState .reset).history = [] ∧
    get_flat_balance (step 14 sampleState .reset).fs = INITIAL_BALANCE ∧
    get_flat_balance emptyFS = INITIAL_BALANCE :=
  ⟨(reset_spec.1 14 sampleState).1, (reset_spec.1 14 sampleState).2.1,
    reset_spec.2.1 emptyFS rfl⟩

/-- C9: processing a new observation while no pending prediction exists
appends the normalized observation to the history but leaves the result
ledger and both balances (files and read values) unchanged. -/
theorem add_without_pending_frame (minU : ℕ) (v : ℚ) (s : SState)
    (h : s.last_prediction = none) :
    (step minU s (.add v)).history = s.history ++ [normalize_input v] ∧
    (step minU s (.add v)).fs.resultsFile = s.fs.resultsFile ∧
    (step minU s (.add v)).fs.flatFile = s.fs.flatFile ∧
    (step minU s (.add v)).fs.fixedFile = s.fs.fixedFile ∧
    load_results (step minU s (.add v)).fs = load_results s.fs ∧
    get_flat_balance (step minU s (.add v)).fs = get_flat_balance s.fs ∧
    get_fixed_balance (step minU s (.add v)).fs = get_fixed_balance s.fs := by
  obtain ⟨hh, hfs⟩ := step_add_no_pending minU v s h
  rw [hh, hfs]
  exact ⟨rfl, rfl, rfl, rfl, rfl, rfl, rfl⟩

/-- Witness for C9 at the initial state (no pending prediction). -/
theorem add_without_pending_frame_witness :
    init.last_prediction = none ∧
    (step 14 init (.add 1)).history = init.history ++ [normalize_input 1] ∧
    load_results (step 14 init (.add 1)).fs = load_results init.fs :=
  ⟨rfl, (add_without_pending_frame 14 1 init rfl).1,
    (add_without_pending_frame 14 1 init rfl).2.2.2.2.1⟩

/-- A concrete event trace: twenty manual entries of the value 1 (so a
prediction is formed once the history reaches the window size), followed by
the reset button. -/
def resetTrace : List Event := List.replicate 20 (Event.add 1) ++ [Event.reset]

/-- C5 counterexample: after twenty manual entries followed by a reset, the
machine is in a reachable state whose history has fewer than `WINDOW` (20)
entries yet still holds the stale pending prediction `"Above"` — the reset
button clears history, results and balances but not
`st.session_state.last_prediction` — and the next observed value IS settled
against it: the result ledger gains a record and the flat balance
changes. -/
theorem short_history_not_idle_counterexample :
    Reachable { history := [], last_prediction := some "Above", fs := emptyFS } ∧
    (SState.mk [] (some "Above") emptyFS).history.length < WINDOW ∧
    (SState.mk [] (some "Above") emptyFS).last_prediction ≠ none ∧
    load_results (step 14 (SState.mk [] (some "Above") emptyFS) (Event.add 1)).fs ≠
      load_results emptyFS ∧
    get_flat_balance (step 14 (SState.mk [] (some "Above") emptyFS) (Event.add 1)).fs ≠
      get_flat_balance emptyFS := by
  have hrun : run 14 init resetTrace =
      { history := [], last_prediction := some "Above", fs := emptyFS } := by rfl
  refine ⟨hrun ▸ reachable_run 14 (by decide) (by decide) resetTrace init Reachable.init,
    by decide, by decide, by decide, ?_⟩
  have hflat : get_flat_balance (step 14 (SState.mk [] (some "Above") emptyFS)
      (Event.add 1)).fs = 9/100 := by
    norm_num [step, save_result, update_flat_balance, update_fixed_balance,
      get_flat_balance, load_results, emptyFS, save_history, normalize_input,
      threshold, FLAT_BET, INITIAL_BALANCE]
  rw [hflat]
  norm_num [get_flat_balance, emptyFS, INITIAL_BALANCE]

/-- C5 (amended): in every state reachable using only manual entries and
plain reruns (no reset, no bulk import), a history with fewer than
`WINDOW` (20) entries implies the machine is Idle (no pending prediction),
and processing the next observed value settles nothing: no result record
is produced and neither balance changes. -/
theorem manual_short_history_idle (s : SState) (h : ReachableManual s)
    (hlen : s.history.length < WINDOW) :
    s.last_prediction = none ∧
    ∀ (minU : ℕ) (v : ℚ),
      load_results (step minU s (.add v)).fs = load_results s.fs ∧
      get_flat_balance (step minU s (.add v)).fs = get_flat_balance s.fs ∧
      get_fixed_balance (step minU s (.add v)).fs = get_fixed_balance s.fs := by
  have hnone : s.last_prediction = none := by
    rcases hp : s.last_prediction with _ | p
    · rfl
    · exact absurd (manual_pending_some_length s h p hp) (not_le.mpr hlen)
  refine ⟨hnone, fun minU v => ?_⟩
  obtain ⟨hh, hfs⟩ := step_add_no_pending minU v s hnone
  rw [hfs]
  exact ⟨rfl, rfl, rfl⟩

/-- Witness for the amended C5 at the concrete state reached by the two
manual entries 3 and 5. -/
theorem manual_short_history_idle_witness :
    (step 15 (step 14 init (Event.add 3)) (Event.add 5)).history.length < WINDOW ∧
    (step 15 (step 14 init (Event.add 3)) (Event.add 5)).last_prediction = none := by
  have h2 : ReachableManual (step 15 (step 14 init (Event.add 3)) (Event.add 5)) :=
    ReachableManual.add _ 5 15 (by decide) (by decide)
      (ReachableManual.add _ 3 14 (by decide) (by decide) ReachableManual.init)
  have hlen : (step 15 (step 14 init (Event.add 3)) (Event.add 5)).history.length <
      WINDOW := by decide
  exact ⟨hlen, (manual_short_history_idle _ h2 hlen).1⟩

end App
